import Mathlib

/-
Verification development for the dmodman download engine.
The definitions below are a shallow embedding of the Rust sources:
  src/api/downloads/download_task.rs  (DownloadTask)
  src/cache/local_file_cache.rs       (LocalFileCache)
  src/ui/component/select.rs          (Select)
Stateful code is embedded as pure functions from an explicit environment
(the outcomes of the I/O calls the code performs) to a resulting state plus
a trace of the effects the code issues, in program order.
-/

/-- Download states of a transfer task (the DownloadState enumeration used by
download_task.rs; its variants are Downloading, Paused, Error, Expired, Done). -/
inductive DownloadState where
  | Downloading
  | Paused
  | Error
  | Expired
  | Done
deriving DecidableEq, Repr

/-- Observable effects issued by DownloadTask, in program order.
Each constructor corresponds to one side-effecting call in download_task.rs:
pushMsg is msgs.push, saveDlInfo is save_dl_info, setState is dl_info.set_state,
abortHandle is join_handle.abort, sendRequest is builder.send (with the
optional Range header value the request carries), storeBytesRead is the
bytes_read.store of the partial file size, setHasChanged is the
downloads.has_changed store, openFile records the OpenOptions flags
(append, create, write, truncate) of the open call, writeChunk is
bufwriter.write_all of one chunk, flush is bufwriter.flush,
renamePartToFinal is fs rename of the .part file, removePartJson is
fs remove_file of the .part.json sidecar, updateMetadata is
downloads.update_metadata (insertion of a LocalFile record). -/
inductive Effect where
  | pushMsg (m : String)
  | saveDlInfo
  | setState (s : DownloadState)
  | abortHandle
  | sendRequest (range : Option String)
  | storeBytesRead (n : Nat)
  | setHasChanged
  | openFile (append create write truncate : Bool)
  | writeChunk (len : Nat)
  | flush
  | renamePartToFinal
  | removePartJson
  | updateMetadata
deriving DecidableEq, Repr

/-- One item of the HTTP body stream, as consumed by the writer loop of
DownloadTask.start: an Ok chunk of a given byte length together with the
outcome of the write_all call for it, or a stream error together with the
outcome of the flush the code performs on that error. -/
inductive StreamItem where
  | ok (len : Nat) (writeOk : Bool)
  | err (flushOk : Bool)
deriving DecidableEq, Repr

/-- Writer loop of the spawned task in DownloadTask.start (the while-let over
stream.next): returns the final value of the shared bytes_read counter, the
effect trace, and whether the loop drained the whole stream (reached the end
without an early return). -/
def writerLoop : List StreamItem → Nat → Nat × List Effect × Bool
  | [], b => (b, [], true)
  | .ok len wOk :: rest, b =>
    if wOk then
      let r := writerLoop rest (b + len)
      (r.1, Effect.writeChunk len :: Effect.setHasChanged :: r.2.1, r.2.2)
    else
      (b, [Effect.pushMsg "IO failure when writing bytes to disk"], false)
  | .err fOk :: rest, b =>
    if fOk then
      let r := writerLoop rest b
      (r.1, Effect.pushMsg "Failure during download" :: Effect.flush :: r.2.1, r.2.2)
    else
      (b, [Effect.pushMsg "Failure during download", Effect.flush,
           Effect.pushMsg "IO failure when flushing bytes to disk"], false)

/-- Successive values held by the shared bytes_read counter during the writer
loop, starting from its initial value (the fetch_add calls in program order). -/
def counterTrace : List StreamItem → Nat → List Nat
  | [], b => [b]
  | .ok len wOk :: rest, b =>
    if wOk then b :: counterTrace rest (b + len) else [b]
  | .err fOk :: rest, b =>
    if fOk then b :: counterTrace rest b else [b]

/-- Total number of body bytes carried by the Ok chunks of a stream. -/
def sumLens : List StreamItem → Nat
  | [] => 0
  | .ok len _ :: rest => len + sumLens rest
  | .err _ :: rest => sumLens rest

/-- The whole spawned task of DownloadTask.start (lines after the open
succeeds): writer loop, final flush, rename of the .part file, removal of the
.part.json sidecar, transition to Done, update_metadata. Returns the effect
trace and whether the task reached the Done transition. -/
def spawnTask (items : List StreamItem) (b0 : Nat) (fOk rOk mOk uOk : Bool) :
    List Effect × Bool :=
  if (writerLoop items b0).2.2 then
    if fOk then
      ((writerLoop items b0).2.1 ++ [Effect.flush] ++
        [Effect.renamePartToFinal] ++
        (if rOk then [] else [Effect.pushMsg "unable to remove the .part extension"]) ++
        [Effect.removePartJson] ++
        (if mOk then [] else [Effect.pushMsg "unable to remove the .part.json file"]) ++
        [Effect.setState DownloadState.Done, Effect.setHasChanged, Effect.updateMetadata] ++
        (if uOk then [] else [Effect.pushMsg "unable to update metadata"]), true)
    else
      ((writerLoop items b0).2.1 ++
        [Effect.flush, Effect.pushMsg "IO failure when flushing bytes to disk"], false)
  else
    ((writerLoop items b0).2.1, false)

/-- Environment of one DownloadTask.start attempt: the outcomes of every
external call the function makes. partExists and partSize describe the
same-named .part file at the destination; oldTotal is the total size stored in
dl_info.progress before the attempt (used when a resume gets a 206); sendOk is
whether builder.send succeeds; status is the HTTP response status; contentLength
is resp.content_length; openOk is the outcome of the OpenOptions open call;
streamItems, flushOk, renameOk, removeOk, updOk drive the spawned task. -/
structure StartEnv where
  partExists : Bool
  partSize : Nat
  oldTotal : Option Nat
  sendOk : Bool
  status : Nat
  contentLength : Option Nat
  openOk : Bool
  streamItems : List StreamItem
  flushOk : Bool
  renameOk : Bool
  removeOk : Bool
  updOk : Bool
deriving Repr

/-- Outcome of a DownloadTask.start attempt: the eventual DownloadState once
the spawned task (if any) has run to completion, the full effect trace,
the value stored in the shared bytes_read counter before the request is sent,
the successive counter values during the writer loop, and the total size known
from the server for this attempt (resp.content_length on a fresh 200 or 206,
the previously persisted total on a resumed 206). -/
structure StartOutcome where
  state : DownloadState
  effects : List Effect
  bytesInit : Nat
  counterValues : List Nat
  knownTotal : Option Nat
deriving Repr

/-- Value of the shared bytes_read counter right after DownloadTask.start
initializes it: the on-disk .part size when resuming, 0 otherwise. -/
def initCounter (env : StartEnv) : Nat :=
  if env.partExists then env.partSize else 0

/-- The Range header value DownloadTask.start attaches when a .part file of
size n exists: the string bytes=n- (a lower bound at exactly n). -/
def rangeHeader (n : Nat) : String :=
  "bytes=" ++ toString n ++ "-"

/-- Effects of DownloadTask.start up to and including the send of the HTTP
request: set_state(Downloading), then, when a .part file exists, the store of
its size into bytes_read and a send carrying the Range header; otherwise a
send with no Range header. -/
def requestEffects (env : StartEnv) : List Effect :=
  Effect.setState DownloadState.Downloading ::
    (if env.partExists then
      [Effect.storeBytesRead env.partSize,
       Effect.sendRequest (some (rangeHeader env.partSize))]
     else
      [Effect.sendRequest none])

/-- Effect trace of the log_and_set_error helper of DownloadTask, appended to
a prefix: msgs.push, set_state(Error), has_changed store. Note it performs no
save_dl_info. -/
def errEffects (pre : List Effect) (msg : String) : List Effect :=
  pre ++ [Effect.pushMsg msg, Effect.setState DownloadState.Error, Effect.setHasChanged]

/-- Outcome of a DownloadTask.start attempt that ends in log_and_set_error
after the request effects. -/
def failOutcome (env : StartEnv) (msg : String) : StartOutcome :=
  { state := DownloadState.Error
    effects := errEffects (requestEffects env) msg
    bytesInit := initCounter env
    counterValues := []
    knownTotal := none }

/-- Continuation of DownloadTask.start after the 200 or 206 branch computed
its OpenOptions: the open call, then on success the spawned writer task. -/
def afterOpen (env : StartEnv) (pre : List Effect) (total : Option Nat) : StartOutcome :=
  if env.openOk then
    { state :=
        if (spawnTask env.streamItems (initCounter env)
              env.flushOk env.renameOk env.removeOk env.updOk).2
        then DownloadState.Done else DownloadState.Downloading
      effects := pre ++ (spawnTask env.streamItems (initCounter env)
              env.flushOk env.renameOk env.removeOk env.updOk).1
      bytesInit := initCounter env
      counterValues := counterTrace env.streamItems (initCounter env)
      knownTotal := total }
  else
    { state := DownloadState.Error
      effects := errEffects pre "unable to open the part file for writing"
      bytesInit := initCounter env
      counterValues := []
      knownTotal := total }

/-- Shallow embedding of DownloadTask.start. Branching follows the source:
send failure is log_and_set_error; statuses 400 to 599 are the Err branch of
error_for_status_ref, inside which 410 transitions to Expired with a
save_dl_info while every other status is log_and_set_error; in the Ok branch a
200 rebuilds the progress (around the same shared counter, which is not reset)
and opens the .part file with write plus create (no truncate), a 206 keeps the
resumed counter and opens with append, and any other status is
log_and_set_error. -/
def start (env : StartEnv) : StartOutcome :=
  if env.sendOk then
    if 400 ≤ env.status ∧ env.status ≤ 599 then
      if env.status = 410 then
        { state := DownloadState.Expired
          effects := requestEffects env ++
            [Effect.setState DownloadState.Expired, Effect.saveDlInfo, Effect.setHasChanged]
          bytesInit := initCounter env
          counterValues := []
          knownTotal := none }
      else
        failOutcome env "download failed with an error status"
    else if env.status = 200 then
      afterOpen env
        (requestEffects env ++ [Effect.saveDlInfo, Effect.openFile false true true false])
        env.contentLength
    else if env.status = 206 then
      afterOpen env
        (requestEffects env ++ [Effect.saveDlInfo, Effect.openFile true false false false])
        (if env.partExists then env.oldTotal else env.contentLength)
    else
      failOutcome env "download got an unexpected HTTP response, please file a bug report"
  else
    failOutcome env "unable to contact the nexus server to start the download"

/-- Environment of DownloadTask.try_start: outcome of create_dir_all, whether
the final file already exists at the destination, whether the file_id is
present in the file index map, and the environment of the inner start call. -/
structure TryStartEnv where
  createDirOk : Bool
  finalExists : Bool
  inIndex : Bool
  startEnv : StartEnv
deriving Repr

/-- Outcome of DownloadTask.try_start: whether it returned Ok, the eventual
DownloadState, and the effect trace. -/
structure TryStartOutcome where
  ok : Bool
  state : DownloadState
  effects : List Effect
deriving Repr

/-- Shallow embedding of DownloadTask.try_start (s0 is the task state on
entry, which the early-return paths leave unchanged). -/
def tryStart (s0 : DownloadState) (env : TryStartEnv) : TryStartOutcome :=
  if env.createDirOk then
    if env.finalExists then
      if env.inIndex then
        { ok := false, state := s0
          effects := [Effect.pushMsg "already exists and will not be downloaded"] }
      else
        { ok := false, state := s0
          effects := [Effect.pushMsg "already exists but was missing its metadata",
                      Effect.updateMetadata] }
    else
      { ok := true, state := (start env.startEnv).state
        effects := (start env.startEnv).effects }
  else
    { ok := false, state := DownloadState.Error
      effects := errEffects [] "failure when creating the download directory" }

/-- Shallow embedding of DownloadTask.toggle_pause: the match on the current
state, followed by the unconditional save_dl_info at the end of the function.
Paused and Error resume through try_start (the state was just set to
Downloading, so that is the entry state of try_start). -/
def togglePause (s : DownloadState) (env : TryStartEnv) : DownloadState × List Effect :=
  match s with
  | DownloadState.Downloading =>
      (DownloadState.Paused,
       [Effect.abortHandle, Effect.setState DownloadState.Paused, Effect.saveDlInfo])
  | DownloadState.Paused =>
      ((tryStart DownloadState.Downloading env).state,
       Effect.setState DownloadState.Downloading ::
         (tryStart DownloadState.Downloading env).effects ++ [Effect.saveDlInfo])
  | DownloadState.Error =>
      ((tryStart DownloadState.Downloading env).state,
       Effect.setState DownloadState.Downloading ::
         (tryStart DownloadState.Downloading env).effects ++ [Effect.saveDlInfo])
  | DownloadState.Expired =>
      (DownloadState.Expired,
       [Effect.setState DownloadState.Expired,
        Effect.pushMsg "download link expired, please download again",
        Effect.saveDlInfo])
  | DownloadState.Done =>
      (DownloadState.Done, [Effect.saveDlInfo])

/-- Shallow embedding of the default method Select.next from
src/ui/component/select.rs, acting on the selected index (an optional
position, as the stateful implementations store it). -/
def Select.next (selected : Option Nat) (len : Nat) : Option Nat :=
  if len = 0 then selected
  else
    some (match selected with
      | some i => if len - 1 ≤ i then 0 else i + 1
      | none => 0)

/-- Shallow embedding of the default method Select.previous from
src/ui/component/select.rs. -/
def Select.previous (selected : Option Nat) (len : Nat) : Option Nat :=
  if len = 0 then selected
  else
    some (match selected with
      | some i => if i = 0 then len - 1 else i - 1
      | none => 0)

/-- Modelled from the spec: the LocalFile record (its definition is not under
src, only the cache that stores it is): file identifier, owning game and mod
identifiers, resolved local path. -/
structure LocalFile where
  file_id : Nat
  game : String
  mod_id : Nat
  path : String
deriving DecidableEq, Repr

/-- Error type of LocalFileCache.new; entryError stands for the CacheError
produced when reading a directory entry fails (the question-mark operator on
next_entry). -/
inductive CacheError where
  | entryError
deriving DecidableEq, Repr

/-- One directory entry as examined by the hydration loop of
LocalFileCache.new: whether the path is a file, its extension, and the result
of LocalFile.load on it (none when deserialization fails). -/
structure DirEntry where
  isFile : Bool
  ext : Option String
  parsed : Option LocalFile
deriving DecidableEq, Repr

/-- Result of next_entry for one step of the hydration loop: a directory
entry, or an I O failure. -/
inductive EntryResult where
  | ok (e : DirEntry)
  | entryFail
deriving DecidableEq, Repr

/-- Insertion into the file_id-keyed map of LocalFileCache (HashMap.insert:
the new record overrides any previous binding of the same key). -/
def insertLF (m : Nat → Option LocalFile) (lf : LocalFile) : Nat → Option LocalFile :=
  fun k => if k = lf.file_id then some lf else m k

/-- The empty file_id map. -/
def emptyMap : Nat → Option LocalFile := fun _ => none

/-- The map built by inserting a list of LocalFile records in order, as the
hydration loop of LocalFileCache.new does for the records it accepts. -/
def hydrate (l : List LocalFile) : Nat → Option LocalFile :=
  l.foldl insertLF emptyMap

/-- Hydration loop of LocalFileCache.new over the stream of directory
entries: an entry read failure aborts with a CacheError; a file with a json
extension whose LocalFile.load succeeds is inserted; everything else is
skipped. -/
def hydrateLoop : List EntryResult → (Nat → Option LocalFile) →
    Except CacheError (Nat → Option LocalFile)
  | [], m => Except.ok m
  | EntryResult.entryFail :: _, _ => Except.error CacheError.entryError
  | EntryResult.ok e :: rest, m =>
    if e.isFile = true ∧ e.ext = some "json" then
      match e.parsed with
      | some lf => hydrateLoop rest (insertLF m lf)
      | none => hydrateLoop rest m
    else
      hydrateLoop rest m

/-- Shallow embedding of LocalFileCache.new: when read_dir fails the loop is
skipped and the cache starts empty; otherwise the hydration loop runs over
the entries. -/
def localFileCacheNew (readDirOk : Bool) (entries : List EntryResult) :
    Except CacheError (Nat → Option LocalFile) :=
  if readDirOk then hydrateLoop entries emptyMap else Except.ok emptyMap

/-- The LocalFile records the hydration loop accepts, in scan order. -/
def validRecords : List EntryResult → List LocalFile
  | [] => []
  | EntryResult.entryFail :: rest => validRecords rest
  | EntryResult.ok e :: rest =>
    if e.isFile = true ∧ e.ext = some "json" then
      match e.parsed with
      | some lf => lf :: validRecords rest
      | none => validRecords rest
    else
      validRecords rest

/-- A well-formed sidecar entry for a LocalFile record: a file with a json
extension that deserializes to the record. -/
def sidecarEntry (lf : LocalFile) : EntryResult :=
  EntryResult.ok { isFile := true, ext := some "json", parsed := some lf }

/-- The completion steps of the spawned task that claim C5 orders: flush,
rename of the .part file, removal of the .part.json sidecar, the transition
to Done, and the LocalFile insertion through update_metadata. -/
def isCompletionStep : Effect → Bool
  | Effect.flush => true
  | Effect.renamePartToFinal => true
  | Effect.removePartJson => true
  | Effect.setState DownloadState.Done => true
  | Effect.updateMetadata => true
  | _ => false

/-- Recognizer for HTTP send effects. -/
def isSend : Effect → Bool
  | Effect.sendRequest _ => true
  | _ => false

/-- Recognizer for rename and sidecar-removal effects (the destructive
completion steps). -/
def isRenameOrRemove : Effect → Bool
  | Effect.renamePartToFinal => true
  | Effect.removePartJson => true
  | _ => false

/-- Recognizer for chunk write effects. -/
def isWrite : Effect → Bool
  | Effect.writeChunk _ => true
  | _ => false

/-- Recognizer for a file open that truncates. -/
def isTruncOpen : Effect → Bool
  | Effect.openFile _ _ _ t => t
  | _ => false

/-- Recognizer for a send whose Range value differs from a given one. -/
def isSendOtherThan (v : Option String) : Effect → Bool
  | Effect.sendRequest r => decide (r ≠ v)
  | _ => false

lemma not_mem_of_all_not {p : Effect → Bool} {l : List Effect}
    (h : l.all (fun e => !p e) = true) {e : Effect} (hpe : p e = true) : e ∉ l := by
  intro hmem
  have := List.all_eq_true.mp h e hmem
  simp [hpe] at this

lemma writerLoop_all_not (p : Effect → Bool)
    (h1 : ∀ len, p (Effect.writeChunk len) = false)
    (h2 : p Effect.setHasChanged = false)
    (h3 : ∀ s, p (Effect.pushMsg s) = false)
    (h4 : p Effect.flush = false) :
    ∀ (items : List StreamItem) (b : Nat),
      (writerLoop items b).2.1.all (fun e => !p e) = true := by
  intro items
  induction items with
  | nil => intro b; simp [writerLoop]
  | cons it rest ih =>
    intro b
    cases it with
    | ok len wOk =>
      cases wOk with
      | false => simp [writerLoop, h3]
      | true => simp [writerLoop, h1, h2, ih]
    | err fOk =>
      cases fOk with
      | false => simp [writerLoop, h3, h4]
      | true => simp [writerLoop, h3, h4, ih]

lemma spawnTask_all_not (p : Effect → Bool)
    (h1 : ∀ len, p (Effect.writeChunk len) = false)
    (h2 : p Effect.setHasChanged = false)
    (h3 : ∀ s, p (Effect.pushMsg s) = false)
    (h4 : p Effect.flush = false)
    (h5 : p Effect.renamePartToFinal = false)
    (h6 : p Effect.removePartJson = false)
    (h7 : p (Effect.setState DownloadState.Done) = false)
    (h8 : p Effect.updateMetadata = false)
    (items : List StreamItem) (b0 : Nat) (f r m u : Bool) :
    (spawnTask items b0 f r m u).1.all (fun e => !p e) = true := by
  have hw := writerLoop_all_not p h1 h2 h3 h4 items b0
  by_cases hd : (writerLoop items b0).2.2 = true
  · cases f with
    | false => simp [spawnTask, hd, List.all_append, hw, h3, h4]
    | true =>
      cases r <;> cases m <;> cases u <;>
        simp [spawnTask, hd, List.all_append, hw, h3, h4, h5, h6, h7, h8, h2]
  · simp [spawnTask, hd, hw]

lemma spawnTask_no_rename (items : List StreamItem) (b0 : Nat) (f r m u : Bool)
    (h : ¬((writerLoop items b0).2.2 = true ∧ f = true)) :
    (spawnTask items b0 f r m u).1.all (fun e => !isRenameOrRemove e) = true := by
  have hw := writerLoop_all_not isRenameOrRemove
    (fun _ => rfl) rfl (fun _ => rfl) rfl items b0
  by_cases hd : (writerLoop items b0).2.2 = true
  · cases f with
    | false =>
      simp [spawnTask, hd, List.all_append, isRenameOrRemove]
      intro x hx
      have hx2 := List.all_eq_true.mp hw x hx
      simpa [isRenameOrRemove] using hx2
    | true => exact absurd ⟨hd, rfl⟩ h
  · simp [spawnTask, hd, hw]

lemma afterOpen_pre_mem (env : StartEnv) (pre : List Effect) (total : Option Nat)
    {e : Effect} (he : e ∈ pre) : e ∈ (afterOpen env pre total).effects := by
  by_cases ho : env.openOk = true <;> simp [afterOpen, ho, errEffects, he]

lemma afterOpen_tail (p : Effect → Bool)
    (hmsg : ∀ s, p (Effect.pushMsg s) = false)
    (hstE : p (Effect.setState DownloadState.Error) = false)
    (hch : p Effect.setHasChanged = false)
    (env : StartEnv) (pre : List Effect) (total : Option Nat)
    (hspawn : ((spawnTask env.streamItems (initCounter env)
        env.flushOk env.renameOk env.removeOk env.updOk).1.all (fun e => !p e)) = true) :
    ∃ tail, (afterOpen env pre total).effects = pre ++ tail ∧
      tail.all (fun e => !p e) = true := by
  by_cases ho : env.openOk = true
  · exact ⟨_, by simp [afterOpen, ho], hspawn⟩
  · refine ⟨[Effect.pushMsg "unable to open the part file for writing",
      Effect.setState DownloadState.Error, Effect.setHasChanged],
      by simp [afterOpen, ho, errEffects], ?_⟩
    simp [hmsg, hstE, hch]

lemma start_tail (p : Effect → Bool)
    (hmsg : ∀ s, p (Effect.pushMsg s) = false)
    (hstE : p (Effect.setState DownloadState.Error) = false)
    (hstExp : p (Effect.setState DownloadState.Expired) = false)
    (hch : p Effect.setHasChanged = false)
    (hsave : p Effect.saveDlInfo = false)
    (hopen200 : p (Effect.openFile false true true false) = false)
    (hopen206 : p (Effect.openFile true false false false) = false)
    (env : StartEnv)
    (hspawn : ((spawnTask env.streamItems (initCounter env)
        env.flushOk env.renameOk env.removeOk env.updOk).1.all (fun e => !p e)) = true) :
    ∃ tail, (start env).effects = requestEffects env ++ tail ∧
      tail.all (fun e => !p e) = true := by
  by_cases hs : env.sendOk = true
  · by_cases h45 : 400 ≤ env.status ∧ env.status ≤ 599
    · by_cases h410 : env.status = 410
      · refine ⟨[Effect.setState DownloadState.Expired, Effect.saveDlInfo,
          Effect.setHasChanged], by simp [start, hs, h45, h410], ?_⟩
        simp [hstExp, hsave, hch]
      · refine ⟨[Effect.pushMsg "download failed with an error status",
          Effect.setState DownloadState.Error, Effect.setHasChanged],
          by simp [start, hs, h45, h410, failOutcome, errEffects], ?_⟩
        simp [hmsg, hstE, hch]
    · by_cases h200 : env.status = 200
      · obtain ⟨t, ht, hta⟩ := afterOpen_tail p hmsg hstE hch env
          (requestEffects env ++ [Effect.saveDlInfo, Effect.openFile false true true false])
          env.contentLength hspawn
        refine ⟨[Effect.saveDlInfo, Effect.openFile false true true false] ++ t, ?_, ?_⟩
        · rw [show (start env).effects = (afterOpen env
            (requestEffects env ++ [Effect.saveDlInfo, Effect.openFile false true true false])
            env.contentLength).effects by simp [start, hs, h45, h200]]
          rw [ht, List.append_assoc]
        · simp [List.all_append, hsave, hopen200, hta]
      · by_cases h206 : env.status = 206
        · obtain ⟨t, ht, hta⟩ := afterOpen_tail p hmsg hstE hch env
            (requestEffects env ++ [Effect.saveDlInfo, Effect.openFile true false false false])
            (if env.partExists then env.oldTotal else env.contentLength) hspawn
          refine ⟨[Effect.saveDlInfo, Effect.openFile true false false false] ++ t, ?_, ?_⟩
          · rw [show (start env).effects = (afterOpen env
              (requestEffects env ++ [Effect.saveDlInfo, Effect.openFile true false false false])
              (if env.partExists then env.oldTotal else env.contentLength)).effects by
                simp [start, hs, h45, h200, h206]]
            rw [ht, List.append_assoc]
          · simp [List.all_append, hsave, hopen206, hta]
        · refine ⟨[Effect.pushMsg
            "download got an unexpected HTTP response, please file a bug report",
            Effect.setState DownloadState.Error, Effect.setHasChanged],
            by simp [start, hs, h45, h200, h206, failOutcome, errEffects], ?_⟩
          simp [hmsg, hstE, hch]
  · refine ⟨[Effect.pushMsg "unable to contact the nexus server to start the download",
      Effect.setState DownloadState.Error, Effect.setHasChanged],
      by simp [start, hs, failOutcome, errEffects], ?_⟩
    simp [hmsg, hstE, hch]

/-- Concrete resume environment: a 500-byte .part file, a 206 answer. -/
def envC2 : StartEnv :=
  { partExists := true, partSize := 500, oldTotal := some 1000, sendOk := true,
    status := 206, contentLength := some 500, openOk := true,
    streamItems := [StreamItem.ok 500 true], flushOk := true, renameOk := true,
    removeOk := true, updOk := true }

/-- C2: when a same-named .part file of size N exists, the HTTP request is
sent with a Range header of exactly bytes=N- (N taken from the on-disk size of
the partial file), and no request with any other Range value is issued. -/
theorem resume_sends_exact_range (env : StartEnv) (h : env.partExists = true) :
    Effect.sendRequest (some ("bytes=" ++ toString env.partSize ++ "-")) ∈ (start env).effects ∧
    ∀ r, Effect.sendRequest r ∈ (start env).effects →
      r = some ("bytes=" ++ toString env.partSize ++ "-") := by
  obtain ⟨tail, htail, hall⟩ := start_tail (isSendOtherThan (some (rangeHeader env.partSize)))
    (fun _ => rfl) rfl rfl rfl rfl rfl rfl env
    (spawnTask_all_not _ (fun _ => rfl) rfl (fun _ => rfl) rfl rfl rfl rfl rfl _ _ _ _ _ _)
  constructor
  · rw [htail]
    apply List.mem_append_left
    simp [requestEffects, h, rangeHeader]
  · intro r hr
    rw [htail, List.mem_append] at hr
    rcases hr with hr | hr
    · simp [requestEffects, h, rangeHeader] at hr
      simpa [rangeHeader] using hr
    · have h2 := List.all_eq_true.mp hall _ hr
      simp [isSendOtherThan, rangeHeader] at h2
      simpa [rangeHeader] using h2

/-- Witness for C2 at the concrete resume environment. -/
theorem resume_sends_exact_range_witness :
    envC2.partExists = true ∧
    (Effect.sendRequest (some ("bytes=" ++ toString envC2.partSize ++ "-")) ∈
        (start envC2).effects ∧
      ∀ r, Effect.sendRequest r ∈ (start envC2).effects →
        r = some ("bytes=" ++ toString envC2.partSize ++ "-")) :=
  ⟨rfl, resume_sends_exact_range envC2 rfl⟩

/-- Concrete environment that answers 410. -/
def envC4 : StartEnv :=
  { partExists := false, partSize := 0, oldTotal := none, sendOk := true,
    status := 410, contentLength := none, openOk := true, streamItems := [],
    flushOk := true, renameOk := true, removeOk := true, updOk := true }

/-- Concrete try_start environment for the Expired no-op. -/
def tEnvC4 : TryStartEnv :=
  { createDirOk := true, finalExists := false, inIndex := false, startEnv := envC4 }

/-- C4: a 410 response always transitions the task to Expired, and
toggle_pause on an Expired task leaves the state Expired and issues no HTTP
request at all (resume on Expired is a no-op apart from a user message and the
final save). -/
theorem http410_expires_and_expired_is_terminal (env2 : StartEnv) (env : TryStartEnv)
    (h1 : env2.sendOk = true) (h2 : env2.status = 410) :
    (start env2).state = DownloadState.Expired ∧
    (togglePause DownloadState.Expired env).1 = DownloadState.Expired ∧
    ∀ r, Effect.sendRequest r ∉ (togglePause DownloadState.Expired env).2 := by
  have hc : 400 ≤ env2.status ∧ env2.status ≤ 599 := by omega
  refine ⟨?_, rfl, ?_⟩
  · simp [start, h1, hc, h2]
  · intro r
    simp [togglePause]

/-- Witness for C4 at the concrete 410 environment. -/
theorem http410_expires_witness :
    envC4.sendOk = true ∧ envC4.status = 410 ∧
    ((start envC4).state = DownloadState.Expired ∧
      (togglePause DownloadState.Expired tEnvC4).1 = DownloadState.Expired ∧
      ∀ r, Effect.sendRequest r ∉ (togglePause DownloadState.Expired tEnvC4).2) :=
  ⟨rfl, rfl, http410_expires_and_expired_is_terminal envC4 tEnvC4 rfl rfl⟩

/-- C6: when the final file already exists, try_start returns an error without
any network request; if the file index has no entry for the file identifier it
backfills the LocalFile metadata through update_metadata, otherwise it only
reports that the file is already downloaded. -/
theorem try_start_fails_fast_when_file_exists (s0 : DownloadState) (env : TryStartEnv)
    (h1 : env.createDirOk = true) (h2 : env.finalExists = true) :
    (tryStart s0 env).ok = false ∧
    (∀ r, Effect.sendRequest r ∉ (tryStart s0 env).effects) ∧
    (env.inIndex = false → Effect.updateMetadata ∈ (tryStart s0 env).effects) ∧
    (env.inIndex = true → (tryStart s0 env).effects =
      [Effect.pushMsg "already exists and will not be downloaded"]) := by
  refine ⟨?_, ?_, ?_, ?_⟩
  · by_cases hi : env.inIndex = true <;> simp [tryStart, h1, h2, hi]
  · intro r
    by_cases hi : env.inIndex = true <;> simp [tryStart, h1, h2, hi]
  · intro hi
    simp [tryStart, h1, h2, hi]
  · intro hi
    simp [tryStart, h1, h2, hi]

/-- Concrete try_start environment: final file present, not in the index. -/
def tEnvC6 : TryStartEnv :=
  { createDirOk := true, finalExists := true, inIndex := false, startEnv := envC4 }

/-- Witness for C6 at the concrete environment. -/
theorem try_start_fails_fast_witness :
    tEnvC6.createDirOk = true ∧ tEnvC6.finalExists = true ∧
    ((tryStart DownloadState.Paused tEnvC6).ok = false ∧
      (∀ r, Effect.sendRequest r ∉ (tryStart DownloadState.Paused tEnvC6).effects) ∧
      (tEnvC6.inIndex = false →
        Effect.updateMetadata ∈ (tryStart DownloadState.Paused tEnvC6).effects) ∧
      (tEnvC6.inIndex = true → (tryStart DownloadState.Paused tEnvC6).effects =
        [Effect.pushMsg "already exists and will not be downloaded"])) :=
  ⟨rfl, rfl, try_start_fails_fast_when_file_exists DownloadState.Paused tEnvC6 rfl rfl⟩

/-- Concrete environment in which the server cannot be reached: the task
transitions Downloading to Error through log_and_set_error. -/
def envC1 : StartEnv :=
  { partExists := false, partSize := 0, oldTotal := none, sendOk := false,
    status := 200, contentLength := none, openOk := true, streamItems := [],
    flushOk := true, renameOk := true, removeOk := true, updOk := true }

/-- Counterexample to C1: the Downloading to Error transition taken when the
send fails sets the Error state but never persists the DownloadInfo (no
save_dl_info effect appears in the trace), so not every state transition
persists the record before returning control. -/
theorem error_transition_not_persisted_cex :
    (start envC1).state = DownloadState.Error ∧
    Effect.saveDlInfo ∉ (start envC1).effects := by decide

/-- C1 as amended: every toggle_pause branch persists the DownloadInfo before
returning, and the 410-triggered Downloading to Expired transition persists
the Expired state; but the Downloading to Error transitions taken through
log_and_set_error do not persist the Error state. -/
theorem transition_persistence_amended (s : DownloadState) (env : TryStartEnv)
    (e410 : StartEnv) (cenv : StartEnv)
    (h1 : e410.sendOk = true) (h2 : e410.status = 410) (h3 : cenv.sendOk = false) :
    Effect.saveDlInfo ∈ (togglePause s env).2 ∧
    Effect.saveDlInfo ∈ (start e410).effects ∧
    ((start cenv).state = DownloadState.Error ∧
      Effect.saveDlInfo ∉ (start cenv).effects) := by
  have hc : 400 ≤ e410.status ∧ e410.status ≤ 599 := by omega
  refine ⟨?_, ?_, ?_, ?_⟩
  · cases s <;> simp [togglePause]
  · simp [start, h1, hc, h2]
  · simp [start, h3, failOutcome]
  · simp [start, h3, failOutcome, errEffects]
    cases hp : cenv.partExists <;> simp [requestEffects, hp]

/-- Witness for the amended C1 at concrete environments. -/
theorem transition_persistence_amended_witness :
    envC4.sendOk = true ∧ envC4.status = 410 ∧ envC1.sendOk = false ∧
    (Effect.saveDlInfo ∈ (togglePause DownloadState.Paused tEnvC4).2 ∧
      Effect.saveDlInfo ∈ (start envC4).effects ∧
      ((start envC1).state = DownloadState.Error ∧
        Effect.saveDlInfo ∉ (start envC1).effects)) :=
  ⟨rfl, rfl, rfl,
   transition_persistence_amended DownloadState.Paused tEnvC4 envC4 envC1 rfl rfl rfl⟩

/-- Concrete resume environment that gets a 200: the stale 5-byte offset stays
in the shared counter and the open does not truncate. -/
def envC3 : StartEnv :=
  { partExists := true, partSize := 5, oldTotal := none, sendOk := true,
    status := 200, contentLength := some 3, openOk := true,
    streamItems := [StreamItem.ok 3 true], flushOk := true, renameOk := true,
    removeOk := true, updOk := true }

/-- Counterexample to C3: on a 200 response after a resume attempt the code
neither ignores the stale resume offset (the shared counter still holds the
.part size 5) nor truncates the partial file (the only open performed has
write and create set but truncate unset, and no truncating open ever occurs). -/
theorem status200_keeps_stale_offset_no_truncate_cex :
    (start envC3).bytesInit = 5 ∧
    Effect.openFile false true true false ∈ (start envC3).effects ∧
    (∀ a c w, Effect.openFile a c w true ∉ (start envC3).effects) := by decide

/-- C3 as amended: on 200 the partial file is opened with write and create but
without truncation (and the shared byte counter keeps any stale resume
offset); on 206 it is opened in append mode; no truncating open ever occurs;
on any status other than 200, 206 and 410 the task records an error message
and transitions to Error without writing any bytes. -/
theorem status_branch_behavior_amended (env : StartEnv) (h : env.sendOk = true) :
    (env.status = 200 → Effect.openFile false true true false ∈ (start env).effects) ∧
    (env.status = 206 → Effect.openFile true false false false ∈ (start env).effects) ∧
    (∀ a c w, Effect.openFile a c w true ∉ (start env).effects) ∧
    (env.status ≠ 200 → env.status ≠ 206 → env.status ≠ 410 →
      (start env).state = DownloadState.Error ∧
      ∀ len, Effect.writeChunk len ∉ (start env).effects) := by
  refine ⟨?_, ?_, ?_, ?_⟩
  · intro h200
    have h45 : ¬(400 ≤ env.status ∧ env.status ≤ 599) := by omega
    have he : start env = afterOpen env
        (requestEffects env ++ [Effect.saveDlInfo, Effect.openFile false true true false])
        env.contentLength := by simp [start, h, h45, h200]
    rw [he]
    exact afterOpen_pre_mem _ _ _ (by simp)
  · intro h206
    by_cases h200 : env.status = 200
    · omega
    · have h45 : ¬(400 ≤ env.status ∧ env.status ≤ 599) := by omega
      have he : start env = afterOpen env
          (requestEffects env ++ [Effect.saveDlInfo, Effect.openFile true false false false])
          (if env.partExists then env.oldTotal else env.contentLength) := by
        simp [start, h, h45, h200, h206]
      rw [he]
      exact afterOpen_pre_mem _ _ _ (by simp)
  · intro a c w hmem
    obtain ⟨tail, htail, hall⟩ := start_tail isTruncOpen
      (fun _ => rfl) rfl rfl rfl rfl rfl rfl env
      (spawnTask_all_not _ (fun _ => rfl) rfl (fun _ => rfl) rfl rfl rfl rfl rfl _ _ _ _ _ _)
    rw [htail, List.mem_append] at hmem
    rcases hmem with hmem | hmem
    · cases hp : env.partExists <;> simp [requestEffects, hp] at hmem
    · have h2 := List.all_eq_true.mp hall _ hmem
      simp [isTruncOpen] at h2
  · intro hn200 hn206 hn410
    have hout : start env = failOutcome env "download failed with an error status" ∨
        start env = failOutcome env
          "download got an unexpected HTTP response, please file a bug report" := by
      by_cases h45 : 400 ≤ env.status ∧ env.status ≤ 599
      · left; simp [start, h, h45, hn410]
      · right; simp [start, h, h45, hn200, hn206]
    rcases hout with he | he <;> rw [he] <;>
      refine ⟨rfl, fun len => ?_⟩ <;>
      · simp [failOutcome, errEffects]
        cases hp : env.partExists <;> simp [requestEffects, hp]

/-- Witness for the amended C3 at the concrete resume environment. -/
theorem status_branch_behavior_amended_witness :
    envC3.sendOk = true ∧
    ((envC3.status = 200 → Effect.openFile false true true false ∈ (start envC3).effects) ∧
      (envC3.status = 206 → Effect.openFile true false false false ∈ (start envC3).effects) ∧
      (∀ a c w, Effect.openFile a c w true ∉ (start envC3).effects) ∧
      (envC3.status ≠ 200 → envC3.status ≠ 206 → envC3.status ≠ 410 →
        (start envC3).state = DownloadState.Error ∧
        ∀ len, Effect.writeChunk len ∉ (start envC3).effects)) :=
  ⟨rfl, status_branch_behavior_amended envC3 rfl⟩

lemma counterTrace_head (items : List StreamItem) (b : Nat) :
    ∃ t, counterTrace items b = b :: t := by
  cases items with
  | nil => exact ⟨[], rfl⟩
  | cons it rest =>
    cases it with
    | ok len w => cases w <;> exact ⟨_, rfl⟩
    | err f => cases f <;> exact ⟨_, rfl⟩

lemma counterTrace_chain (items : List StreamItem) :
    ∀ b, List.Chain' (· ≤ ·) (counterTrace items b) := by
  induction items with
  | nil => intro b; simp [counterTrace]
  | cons it rest ih =>
    intro b
    cases it with
    | ok len w =>
      cases w with
      | false => simp [counterTrace]
      | true =>
        rw [show counterTrace (StreamItem.ok len true :: rest) b =
          b :: counterTrace rest (b + len) from rfl]
        rw [List.chain'_cons']
        refine ⟨?_, ih _⟩
        intro y hy
        obtain ⟨t, ht⟩ := counterTrace_head rest (b + len)
        rw [ht] at hy
        simp at hy
        omega
    | err f =>
      cases f with
      | false => simp [counterTrace]
      | true =>
        rw [show counterTrace (StreamItem.err true :: rest) b =
          b :: counterTrace rest b from rfl]
        rw [List.chain'_cons']
        refine ⟨?_, ih _⟩
        intro y hy
        obtain ⟨t, ht⟩ := counterTrace_head rest b
        rw [ht] at hy
        simp at hy
        omega

lemma counterTrace_le (items : List StreamItem) :
    ∀ b v, v ∈ counterTrace items b → v ≤ b + sumLens items := by
  induction items with
  | nil =>
    intro b v hv
    simp [counterTrace] at hv
    simp [sumLens, hv]
  | cons it rest ih =>
    intro b v hv
    cases it with
    | ok len w =>
      cases w with
      | false =>
        simp [counterTrace] at hv
        simp [sumLens, hv]
      | true =>
        rw [show counterTrace (StreamItem.ok len true :: rest) b =
          b :: counterTrace rest (b + len) from rfl] at hv
        rcases List.mem_cons.mp hv with hv | hv
        · simp [sumLens, hv]
        · have := ih (b + len) v hv
          simp [sumLens]
          omega
    | err f =>
      cases f with
      | false =>
        simp [counterTrace] at hv
        simp [sumLens, hv]
      | true =>
        rw [show counterTrace (StreamItem.err true :: rest) b =
          b :: counterTrace rest b from rfl] at hv
        rcases List.mem_cons.mp hv with hv | hv
        · simp [sumLens, hv]
        · have := ih b v hv
          simp [sumLens]
          omega

lemma start_counterValues (env : StartEnv) :
    (start env).counterValues = [] ∨
    (start env).counterValues = counterTrace env.streamItems (initCounter env) := by
  by_cases hs : env.sendOk = true
  · by_cases h45 : 400 ≤ env.status ∧ env.status ≤ 599
    · by_cases h410 : env.status = 410
      · left; simp [start, hs, h45, h410]
      · left; simp [start, hs, h45, h410, failOutcome]
    · by_cases h200 : env.status = 200
      · by_cases ho : env.openOk = true
        · right; simp [start, hs, h45, h200, afterOpen, ho]
        · left; simp [start, hs, h45, h200, afterOpen, ho]
      · by_cases h206 : env.status = 206
        · by_cases ho : env.openOk = true
          · right; simp [start, hs, h45, h200, h206, afterOpen, ho]
          · left; simp [start, hs, h45, h200, h206, afterOpen, ho]
        · left; simp [start, hs, h45, h200, h206, failOutcome]
  · left; simp [start, hs, failOutcome]

/-- C7 as amended: the shared bytes-received counter never decreases within
one attempt (its successive values form a monotone chain, unconditionally);
and on a fresh attempt (no pre-existing .part file, counter starting at 0)
that gets a 200 whose body carries at most the advertised content length, the
counter never exceeds the total size known from the server. A resumed attempt
that gets a 200 can exceed the total. -/
theorem progress_monotone_and_bounded (env : StartEnv) (T : Nat) :
    List.Chain' (· ≤ ·) (start env).counterValues ∧
    (env.partExists = false → env.contentLength = some T → env.status = 200 →
      env.sendOk = true → sumLens env.streamItems ≤ T →
      (start env).knownTotal = some T ∧ ∀ v ∈ (start env).counterValues, v ≤ T) := by
  constructor
  · rcases start_counterValues env with h | h <;> rw [h]
    · simp
    · exact counterTrace_chain _ _
  · intro hp hcl h200 hs hsum
    have h45 : ¬(400 ≤ env.status ∧ env.status ≤ 599) := by omega
    constructor
    · by_cases ho : env.openOk = true <;>
        simp [start, hs, h45, h200, afterOpen, ho, hcl]
    · intro v hv
      rcases start_counterValues env with h | h
      · rw [h] at hv; simp at hv
      · rw [h] at hv
        have hle := counterTrace_le env.streamItems (initCounter env) v hv
        have hinit : initCounter env = 0 := by simp [initCounter, hp]
        omega

/-- Concrete resumed attempt answered with a 200: counter starts at the stale
offset 1, total size known is 1, counter reaches 2. -/
def envC7 : StartEnv :=
  { partExists := true, partSize := 1, oldTotal := none, sendOk := true,
    status := 200, contentLength := some 1, openOk := true,
    streamItems := [StreamItem.ok 1 true], flushOk := true, renameOk := true,
    removeOk := true, updOk := true }

/-- Counterexample to C7: in a resumed attempt answered with a 200 the shared
counter exceeds the total size known from the server (it reaches 2 while the
known total is 1), because the stale offset is kept and the full body is
counted on top of it. -/
theorem progress_exceeds_total_cex :
    (start envC7).knownTotal = some 1 ∧
    (2 : Nat) ∈ (start envC7).counterValues ∧ ¬((2 : Nat) ≤ 1) := by decide

/-- Concrete fresh attempt: counter starts at 0, two chunks summing to the
content length 10. -/
def envC7f : StartEnv :=
  { partExists := false, partSize := 0, oldTotal := none, sendOk := true,
    status := 200, contentLength := some 10, openOk := true,
    streamItems := [StreamItem.ok 4 true, StreamItem.ok 6 true], flushOk := true,
    renameOk := true, removeOk := true, updOk := true }

/-- Witness for the amended C7 at the concrete fresh environment. -/
theorem progress_monotone_and_bounded_witness :
    envC7f.partExists = false ∧ envC7f.contentLength = some 10 ∧
    envC7f.status = 200 ∧ envC7f.sendOk = true ∧ sumLens envC7f.streamItems ≤ 10 ∧
    List.Chain' (· ≤ ·) (start envC7f).counterValues ∧
    ((start envC7f).knownTotal = some 10 ∧
      ∀ v ∈ (start envC7f).counterValues, v ≤ 10) :=
  ⟨rfl, rfl, rfl, rfl, by decide,
   (progress_monotone_and_bounded envC7f 10).1,
   (progress_monotone_and_bounded envC7f 10).2 rfl rfl rfl rfl (by decide)⟩

lemma filter_requestEffects (env : StartEnv) :
    (requestEffects env).filter isCompletionStep = [] := by
  cases hp : env.partExists <;> simp [requestEffects, hp, isCompletionStep]

lemma writerLoop_allOk (items : List StreamItem) :
    ∀ b, (∀ it ∈ items, ∃ len, it = StreamItem.ok len true) →
      (writerLoop items b).2.2 = true ∧
      (writerLoop items b).2.1.filter isCompletionStep = [] := by
  induction items with
  | nil => intro b _; simp [writerLoop]
  | cons it rest ih =>
    intro b h
    obtain ⟨len, rfl⟩ := h it (List.mem_cons_self it rest)
    obtain ⟨hd, hf⟩ := ih (b + len) (fun x hx => h x (List.mem_cons_of_mem _ hx))
    rw [show writerLoop (StreamItem.ok len true :: rest) b =
      ((writerLoop rest (b + len)).1,
       Effect.writeChunk len :: Effect.setHasChanged :: (writerLoop rest (b + len)).2.1,
       (writerLoop rest (b + len)).2.2) from rfl]
    exact ⟨hd, by simp [isCompletionStep, hf]⟩

/-- C5: when the response body stream completes without error and the flush
succeeds, the completion steps of the spawned task occur in exactly the order
flush, rename of the .part file, removal of the .part.json sidecar, transition
to Done, LocalFile insertion (update_metadata); and in every execution the
rename and the sidecar removal occur only if the stream was fully drained and
the final flush succeeded. -/
theorem completion_steps_order (env : StartEnv) :
    ((env.sendOk = true ∧ (env.status = 200 ∨ env.status = 206) ∧ env.openOk = true ∧
      (∀ it ∈ env.streamItems, ∃ len, it = StreamItem.ok len true) ∧
      env.flushOk = true ∧ env.renameOk = true ∧ env.removeOk = true ∧ env.updOk = true) →
      ((start env).effects.filter isCompletionStep =
        [Effect.flush, Effect.renamePartToFinal, Effect.removePartJson,
         Effect.setState DownloadState.Done, Effect.updateMetadata] ∧
       (start env).state = DownloadState.Done)) ∧
    ((Effect.renamePartToFinal ∈ (start env).effects ∨
      Effect.removePartJson ∈ (start env).effects) →
      (writerLoop env.streamItems (initCounter env)).2.2 = true ∧ env.flushOk = true) := by
  constructor
  · rintro ⟨hs, hst, ho, hok, hf, hr, hm, hu⟩
    obtain ⟨hd, hfil⟩ := writerLoop_allOk env.streamItems (initCounter env) hok
    have hpre : ∀ mid : List Effect, mid.filter isCompletionStep = [] →
        ((requestEffects env ++ mid) ++
          (spawnTask env.streamItems (initCounter env)
            env.flushOk env.renameOk env.removeOk env.updOk).1).filter isCompletionStep =
        [Effect.flush, Effect.renamePartToFinal, Effect.removePartJson,
         Effect.setState DownloadState.Done, Effect.updateMetadata] := by
      intro mid hmid
      simp [List.filter_append, filter_requestEffects, hmid, spawnTask, hd, hf, hr, hm, hu,
        hfil, isCompletionStep]
    have hstate : (spawnTask env.streamItems (initCounter env)
        env.flushOk env.renameOk env.removeOk env.updOk).2 = true := by
      simp [spawnTask, hd, hf]
    rcases hst with h200 | h206
    · have h45 : ¬(400 ≤ env.status ∧ env.status ≤ 599) := by omega
      have he : start env = afterOpen env
          (requestEffects env ++ [Effect.saveDlInfo, Effect.openFile false true true false])
          env.contentLength := by simp [start, hs, h45, h200]
      rw [he]
      refine ⟨?_, ?_⟩
      · simp only [afterOpen, ho, if_true]
        exact hpre _ (by simp [isCompletionStep])
      · simp [afterOpen, ho, hstate]
    · have h45 : ¬(400 ≤ env.status ∧ env.status ≤ 599) := by omega
      by_cases h200 : env.status = 200
      · omega
      · have he : start env = afterOpen env
            (requestEffects env ++ [Effect.saveDlInfo, Effect.openFile true false false false])
            (if env.partExists then env.oldTotal else env.contentLength) := by
          simp [start, hs, h45, h200, h206]
        rw [he]
        refine ⟨?_, ?_⟩
        · simp only [afterOpen, ho, if_true]
          exact hpre _ (by simp [isCompletionStep])
        · simp [afterOpen, ho, hstate]
  · intro hmem
    by_cases hdf : (writerLoop env.streamItems (initCounter env)).2.2 = true ∧
        env.flushOk = true
    · exact hdf
    · exfalso
      obtain ⟨tail, htail, hall⟩ := start_tail isRenameOrRemove
        (fun _ => rfl) rfl rfl rfl rfl rfl rfl env
        (spawnTask_no_rename env.streamItems (initCounter env)
          env.flushOk env.renameOk env.removeOk env.updOk hdf)
      rcases hmem with hmem | hmem <;> rw [htail, List.mem_append] at hmem <;>
        rcases hmem with hmem | hmem
      · cases hp : env.partExists <;> simp [requestEffects, hp] at hmem
      · have h2 := List.all_eq_true.mp hall _ hmem
        simp [isRenameOrRemove] at h2
      · cases hp : env.partExists <;> simp [requestEffects, hp] at hmem
      · have h2 := List.all_eq_true.mp hall _ hmem
        simp [isRenameOrRemove] at h2

/-- Concrete fresh and fully successful attempt for the C5 witness. -/
def envC5 : StartEnv :=
  { partExists := false, partSize := 0, oldTotal := none, sendOk := true,
    status := 200, contentLength := some 7, openOk := true,
    streamItems := [StreamItem.ok 7 true], flushOk := true, renameOk := true,
    removeOk := true, updOk := true }

/-- Witness for C5 at the concrete successful environment. -/
theorem completion_steps_order_witness :
    ((start envC5).effects.filter isCompletionStep =
      [Effect.flush, Effect.renamePartToFinal, Effect.removePartJson,
       Effect.setState DownloadState.Done, Effect.updateMetadata] ∧
     (start envC5).state = DownloadState.Done) ∧
    ((writerLoop envC5.streamItems (initCounter envC5)).2.2 = true ∧
      envC5.flushOk = true) :=
  ⟨(completion_steps_order envC5).1
    ⟨rfl, Or.inl rfl, rfl, by intro it hit; simp [envC5] at hit; exact ⟨7, hit⟩,
     rfl, rfl, rfl, rfl⟩,
   (completion_steps_order envC5).2 (Or.inl (by decide))⟩

/-- Counterexample to C9: with list length 2 and a stale selection at index 5,
Select.previous produces index 4, which is outside the range 0 to len-1, so
the two operations do not always produce an in-range index. -/
theorem select_previous_out_of_range_cex :
    Select.previous (some 5) 2 = some 4 ∧ ¬(4 < 2) := by decide

/-- C9 as amended: for len greater than 0 and a prior selection that is none
or in range, next and previous produce an index in 0 to len-1; next wraps from
len-1 to 0, previous wraps from 0 to len-1, both select 0 from none, next
steps up by one and previous steps down by one inside the range; for len = 0
both leave the selection unchanged. (A stale prior selection at or beyond len
can make previous land outside the range.) -/
theorem select_wraps_in_range (len : Nat) (h : 0 < len) :
    (∀ i, i < len → ∃ j, Select.next (some i) len = some j ∧ j < len) ∧
    (∀ i, i < len → ∃ j, Select.previous (some i) len = some j ∧ j < len) ∧
    Select.next none len = some 0 ∧
    Select.previous none len = some 0 ∧
    Select.next (some (len - 1)) len = some 0 ∧
    Select.previous (some 0) len = some (len - 1) ∧
    (∀ i, i + 1 < len → Select.next (some i) len = some (i + 1)) ∧
    (∀ i, 0 < i → i < len → Select.previous (some i) len = some (i - 1)) ∧
    (∀ s, Select.next s 0 = s ∧ Select.previous s 0 = s) := by
  have hne : ¬(len = 0) := by omega
  refine ⟨?_, ?_, ?_, ?_, ?_, ?_, ?_, ?_, ?_⟩
  · intro i hi
    by_cases hw : len - 1 ≤ i
    · exact ⟨0, by simp [Select.next, hne, hw], h⟩
    · exact ⟨i + 1, by simp [Select.next, hne, hw], by omega⟩
  · intro i hi
    by_cases hw : i = 0
    · exact ⟨len - 1, by simp [Select.previous, hne, hw], by omega⟩
    · exact ⟨i - 1, by simp [Select.previous, hne, hw], by omega⟩
  · simp [Select.next, hne]
  · simp [Select.previous, hne]
  · simp [Select.next, hne]
  · simp [Select.previous, hne]
  · intro i hi
    have hw : ¬(len - 1 ≤ i) := by omega
    simp [Select.next, hne, hw]
  · intro i h0 hi
    have hw : ¬(i = 0) := by omega
    simp [Select.previous, hne, hw]
  · intro s
    simp [Select.next, Select.previous]

/-- Witness for the amended C9 at len = 3. -/
theorem select_wraps_in_range_witness :
    0 < 3 ∧
    ((∀ i, i < 3 → ∃ j, Select.next (some i) 3 = some j ∧ j < 3) ∧
     (∀ i, i < 3 → ∃ j, Select.previous (some i) 3 = some j ∧ j < 3) ∧
     Select.next none 3 = some 0 ∧
     Select.previous none 3 = some 0 ∧
     Select.next (some (3 - 1)) 3 = some 0 ∧
     Select.previous (some 0) 3 = some (3 - 1) ∧
     (∀ i, i + 1 < 3 → Select.next (some i) 3 = some (i + 1)) ∧
     (∀ i, 0 < i → i < 3 → Select.previous (some i) 3 = some (i - 1)) ∧
     (∀ s, Select.next s 0 = s ∧ Select.previous s 0 = s)) :=
  ⟨by decide, select_wraps_in_range 3 (by decide)⟩

lemma foldl_insert_not_mem (l : List LocalFile) :
    ∀ (m : Nat → Option LocalFile) (k : Nat), (∀ lf ∈ l, lf.file_id ≠ k) →
      (l.foldl insertLF m) k = m k := by
  induction l with
  | nil => intro m k _; rfl
  | cons a rest ih =>
    intro m k h
    rw [List.foldl_cons, ih (insertLF m a) k (fun lf hlf => h lf (List.mem_cons_of_mem _ hlf))]
    have hk : k ≠ a.file_id := fun he => h a (List.mem_cons_self a rest) he.symm
    simp [insertLF, hk]

lemma foldl_insert_mem (l : List LocalFile) :
    ∀ (m : Nat → Option LocalFile) (lf : LocalFile),
      l.Pairwise (fun a b => a.file_id ≠ b.file_id) → lf ∈ l →
      (l.foldl insertLF m) lf.file_id = some lf := by
  induction l with
  | nil => intro m lf _ hm; simp at hm
  | cons a rest ih =>
    intro m lf hp hm
    rw [List.foldl_cons]
    rcases List.mem_cons.mp hm with rfl | hm
    · have hne : ∀ x ∈ rest, x.file_id ≠ lf.file_id :=
        fun x hx => ((List.pairwise_cons.mp hp).1 x hx).symm
      rw [foldl_insert_not_mem rest (insertLF m lf) lf.file_id hne]
      simp [insertLF]
    · exact ih (insertLF m a) lf (List.pairwise_cons.mp hp).2 hm

lemma hydrate_lookup_perm (l₁ l₂ : List LocalFile) (hperm : l₁.Perm l₂)
    (hdist : l₁.Pairwise fun a b => a.file_id ≠ b.file_id) (k : Nat) :
    hydrate l₁ k = hydrate l₂ k := by
  have hdist₂ : l₂.Pairwise (fun a b => a.file_id ≠ b.file_id) :=
    (hperm.pairwise_iff (fun h => h.symm)).mp hdist
  by_cases hk : ∃ lf ∈ l₁, lf.file_id = k
  · obtain ⟨lf, hmem, hid⟩ := hk
    subst hid
    rw [hydrate, hydrate, foldl_insert_mem l₁ emptyMap lf hdist hmem,
      foldl_insert_mem l₂ emptyMap lf hdist₂ (hperm.mem_iff.mp hmem)]
  · push_neg at hk
    rw [hydrate, hydrate, foldl_insert_not_mem l₁ emptyMap k hk,
      foldl_insert_not_mem l₂ emptyMap k (fun lf h => hk lf (hperm.mem_iff.mpr h))]

lemma hydrateLoop_sidecars (l : List LocalFile) :
    ∀ m, hydrateLoop (l.map sidecarEntry) m = Except.ok (l.foldl insertLF m) := by
  induction l with
  | nil => intro m; rfl
  | cons a rest ih =>
    intro m
    simp [List.map_cons, hydrateLoop, sidecarEntry, ih, List.foldl_cons]

/-- C8: hydration of LocalFileCache is order independent: for any two scan
orders of the same sidecar records with pairwise distinct file identifiers,
LocalFileCache.new succeeds and produces the same file-identifier map. -/
theorem local_file_cache_order_independent (l₁ l₂ : List LocalFile)
    (hperm : l₁.Perm l₂)
    (hdist : l₁.Pairwise fun a b => a.file_id ≠ b.file_id) :
    ∃ m₁ m₂, localFileCacheNew true (l₁.map sidecarEntry) = Except.ok m₁ ∧
      localFileCacheNew true (l₂.map sidecarEntry) = Except.ok m₂ ∧
      ∀ k, m₁ k = m₂ k := by
  refine ⟨hydrate l₁, hydrate l₂, ?_, ?_, ?_⟩
  · simp only [localFileCacheNew, if_true]
    exact hydrateLoop_sidecars l₁ emptyMap
  · simp only [localFileCacheNew, if_true]
    exact hydrateLoop_sidecars l₂ emptyMap
  · exact hydrate_lookup_perm l₁ l₂ hperm hdist

/-- Concrete LocalFile records with distinct identifiers. -/
def lfA : LocalFile := { file_id := 1, game := "morrowind", mod_id := 10, path := "a.zip" }

/-- Second concrete LocalFile record. -/
def lfB : LocalFile := { file_id := 2, game := "morrowind", mod_id := 11, path := "b.zip" }

/-- Witness for C8 at two concrete scan orders of the same two records. -/
theorem local_file_cache_order_independent_witness :
    [lfA, lfB].Perm [lfB, lfA] ∧
    ([lfA, lfB].Pairwise fun a b => a.file_id ≠ b.file_id) ∧
    (∃ m₁ m₂, localFileCacheNew true ([lfA, lfB].map sidecarEntry) = Except.ok m₁ ∧
      localFileCacheNew true ([lfB, lfA].map sidecarEntry) = Except.ok m₂ ∧
      ∀ k, m₁ k = m₂ k) :=
  ⟨List.Perm.swap lfB lfA [], by decide,
   local_file_cache_order_independent [lfA, lfB] [lfB, lfA]
     (List.Perm.swap lfB lfA []) (by decide)⟩

lemma hydrateLoop_no_fail (entries : List EntryResult) :
    ∀ m, EntryResult.entryFail ∉ entries →
      hydrateLoop entries m = Except.ok ((validRecords entries).foldl insertLF m) := by
  induction entries with
  | nil => intro m _; rfl
  | cons e rest ih =>
    intro m h
    cases e with
    | entryFail => exact absurd (List.mem_cons_self _ _) h
    | ok d =>
      have hrest : EntryResult.entryFail ∉ rest := fun hr => h (List.mem_cons_of_mem _ hr)
      by_cases hc : d.isFile = true ∧ d.ext = some "json"
      · cases hp : d.parsed with
        | some lf => simp [hydrateLoop, hc, hp, validRecords, ih _ hrest, List.foldl_cons]
        | none => simp [hydrateLoop, hc, hp, validRecords, ih _ hrest]
      · simp [hydrateLoop, hc, validRecords, ih _ hrest]

lemma hydrateLoop_fail (pre : List EntryResult) (suf : List EntryResult) :
    ∀ m, EntryResult.entryFail ∉ pre →
      hydrateLoop (pre ++ EntryResult.entryFail :: suf) m =
        Except.error CacheError.entryError := by
  induction pre with
  | nil => intro m _; rfl
  | cons e rest ih =>
    intro m h
    cases e with
    | entryFail => exact absurd (List.mem_cons_self _ _) h
    | ok d =>
      have hrest : EntryResult.entryFail ∉ rest := fun hr => h (List.mem_cons_of_mem _ hr)
      by_cases hc : d.isFile = true ∧ d.ext = some "json"
      · cases hp : d.parsed with
        | some lf => simp [hydrateLoop, hc, hp, ih _ hrest]
        | none => simp [hydrateLoop, hc, hp, ih _ hrest]
      · simp [hydrateLoop, hc, ih _ hrest]

lemma hydrateLoop_skip (bad : DirEntry) (hbad : bad.parsed = none)
    (suf : List EntryResult) : ∀ (pre : List EntryResult) (m : Nat → Option LocalFile),
      hydrateLoop (pre ++ EntryResult.ok bad :: suf) m = hydrateLoop (pre ++ suf) m := by
  intro pre
  induction pre with
  | nil =>
    intro m
    by_cases hc : bad.isFile = true ∧ bad.ext = some "json"
    · simp [hydrateLoop, hc, hbad]
    · simp [hydrateLoop, hc]
  | cons e rest ih =>
    intro m
    cases e with
    | entryFail => rfl
    | ok d =>
      by_cases hc : d.isFile = true ∧ d.ext = some "json"
      · cases hp : d.parsed with
        | some lf => simp [hydrateLoop, hc, hp, ih]
        | none => simp [hydrateLoop, hc, hp, ih]
      · simp [hydrateLoop, hc, ih]

/-- C10: during LocalFileCache.new hydration a json sidecar entry that fails
to deserialize is silently skipped (removing it from the scan changes
nothing, and with no entry read failure construction succeeds with exactly
the valid records loaded), while an entry read failure aborts hydration with
a CacheError. -/
theorem hydration_skips_invalid_sidecars (entries : List EntryResult) :
    (EntryResult.entryFail ∉ entries →
      localFileCacheNew true entries = Except.ok (hydrate (validRecords entries))) ∧
    (∀ pre suf, entries = pre ++ EntryResult.entryFail :: suf →
      EntryResult.entryFail ∉ pre →
      localFileCacheNew true entries = Except.error CacheError.entryError) ∧
    (∀ pre suf bad, bad.parsed = none →
      entries = pre ++ EntryResult.ok bad :: suf →
      localFileCacheNew true entries = localFileCacheNew true (pre ++ suf)) := by
  refine ⟨?_, ?_, ?_⟩
  · intro h
    simp only [localFileCacheNew, if_true]
    exact hydrateLoop_no_fail entries emptyMap h
  · intro pre suf he h
    subst he
    simp only [localFileCacheNew, if_true]
    exact hydrateLoop_fail pre suf emptyMap h
  · intro pre suf bad hbad he
    subst he
    simp only [localFileCacheNew, if_true]
    exact hydrateLoop_skip bad hbad suf pre emptyMap

/-- Concrete sidecar entry whose deserialization fails. -/
def badC10 : DirEntry := { isFile := true, ext := some "json", parsed := none }

/-- Concrete scan with a valid record, a corrupt sidecar, another valid record. -/
def entC10 : List EntryResult := [sidecarEntry lfA, EntryResult.ok badC10, sidecarEntry lfB]

/-- Witness for C10: the corrupt sidecar is skipped (hydration succeeds and
equals hydration without it), and a scan with an entry read failure aborts. -/
theorem hydration_skips_invalid_sidecars_witness :
    EntryResult.entryFail ∉ entC10 ∧
    localFileCacheNew true entC10 = Except.ok (hydrate (validRecords entC10)) ∧
    localFileCacheNew true entC10 =
      localFileCacheNew true ([sidecarEntry lfA] ++ [sidecarEntry lfB]) ∧
    localFileCacheNew true [sidecarEntry lfA, EntryResult.entryFail] =
      Except.error CacheError.entryError :=
  ⟨by decide,
   (hydration_skips_invalid_sidecars entC10).1 (by decide),
   (hydration_skips_invalid_sidecars entC10).2.2
     [sidecarEntry lfA] [sidecarEntry lfB] badC10 rfl rfl,
   (hydration_skips_invalid_sidecars [sidecarEntry lfA, EntryResult.entryFail]).2.1
     [sidecarEntry lfA] [] rfl (by decide)⟩
